import Mathlib

/-!
Verification development for the Ayush EMR integration service
(`main.py`): a shallow embedding of its FHIR bundle validation
pipeline (pydantic models `HumanName`, `FhirReference`,
`CodeableConcept`, `Patient`, `Practitioner`, `Condition`,
`BundleEntry`, `FhirBundle`, discriminated on `resourceType`),
of the `/fhir/Bundle` submission endpoint with its mock bearer
check, and of the two in-memory lookup endpoints
(`/api/lookup`, `/api/patients`).

JSON request bodies are modelled by the inductive `Json`; pydantic
validation is modelled by fail-fast decoders returning
`Except VError _`, where a `VError` carries the error location
(path of field names / list indices, as pydantic reports in the
`loc` of its error list) and an error kind mirroring pydantic's
error types (`missing`, `literal_error`, `union_tag_invalid`,
`*_type`).  On validation failure FastAPI's default handler
answers HTTP 422 with a `detail` list; this is modelled by
`validationErrorBody`.
-/

/-- A JSON value, the untyped input of the validation pipeline. -/
inductive Json where
  | null
  | bool (b : Bool)
  | num (n : Int)
  | str (s : String)
  | arr (xs : List Json)
  | obj (kvs : List (String × Json))

/-- One segment of a pydantic error location: a field name or a list index. -/
inductive PathSeg where
  | field (name : String)
  | index (i : Nat)

/-- The class of a validation failure, mirroring pydantic's error types:
a required field absent, a `Literal` field with the wrong value, a
discriminated-union tag that matches no variant, or a value of the wrong
primitive shape. -/
inductive ErrKind where
  | missing
  | literalMismatch (expected : String)
  | unionTagInvalid (tag : Option String)
  | typeMismatch (expected : String)

/-- A single validation error: location (relative to the validated value)
plus kind. -/
structure VError where
  loc : List PathSeg
  kind : ErrKind

/-- Field access on a JSON object; `none` on non-objects and absent keys
(like Python `dict.get`). -/
def Json.getField : Json → String → Option Json
  | .obj kvs, k => List.lookup k kvs
  | _, _ => none

/-- Re-root an inner validation result one path segment deeper, the way
pydantic prefixes the enclosing field name / index onto the error `loc`. -/
def within {α : Type} (seg : PathSeg) : Except VError α → Except VError α
  | .ok a => .ok a
  | .error e => .error ⟨seg :: e.loc, e.kind⟩

/-- A `str`-typed value: must be a JSON string. -/
def validateStr : Json → Except VError String
  | .str s => .ok s
  | _ => .error ⟨[], .typeMismatch "string"⟩

/-- A `dict`-typed value (and the attribute source of a pydantic model):
must be a JSON object; the key/value pairs pass through unvalidated. -/
def validateObjKvs : Json → Except VError (List (String × Json))
  | .obj kvs => .ok kvs
  | _ => .error ⟨[], .typeMismatch "dict"⟩

/-- Required field: absent keys are a `missing` error located at the field. -/
def reqField (j : Json) (k : String) : Except VError Json :=
  match j.getField k with
  | some v => .ok v
  | none => .error ⟨[.field k], .missing⟩

/-- Required `str` field of a model. -/
def fieldStr (j : Json) (k : String) : Except VError String :=
  match j.getField k with
  | some v => within (.field k) (validateStr v)
  | none => .error ⟨[.field k], .missing⟩

/-- Optional `str | None = None` field (`birthDate`): absent or `null`
decodes to `none`; any other non-string value is rejected. -/
def validateOptStr (j : Json) (k : String) : Except VError (Option String)  :=
  match j.getField k with
  | none => .ok none
  | some .null => .ok none
  | some (.str s) => .ok (some s)
  | some _ => .error ⟨[.field k], .typeMismatch "string"⟩

/-- A `Literal["…"]` field: present, a string, and exactly the expected value;
anything else is a literal mismatch (pydantic `literal_error`). -/
def checkLit (j : Json) (k : String) (expected : String) : Except VError Unit :=
  match j.getField k with
  | none => .error ⟨[.field k], .missing⟩
  | some (.str s) =>
      if s = expected then .ok ()
      else .error ⟨[.field k], .literalMismatch expected⟩
  | some _ => .error ⟨[.field k], .literalMismatch expected⟩

/-- Validate the elements of a JSON list one by one, fail-fast, tagging
each error with the element's index; `i` is the index of the head. -/
def validateListIdx {α : Type} (f : Json → Except VError α) :
    Nat → List Json → Except VError (List α)
  | _, [] => .ok []
  | i, j :: js => do
    let a ← within (.index i) (f j)
    let rest ← validateListIdx f (i + 1) js
    .ok (a :: rest)

/-- Model `class HumanName(BaseModel): text: str`. -/
structure HumanName where
  text : String

/-- Model `class FhirReference(BaseModel): reference: str`. -/
structure FhirReference where
  reference : String

/-- Model `class CodeableConcept(BaseModel): coding: List[Dict[str, Any]]; text: str`. -/
structure CodeableConcept where
  coding : List (List (String × Json))
  text : String

/-- Model `class Patient(BaseModel)`: tag `"Patient"`, `name: List[HumanName]`,
`birthDate: str | None = None`. -/
structure Patient where
  name : List HumanName
  birthDate : Option String

/-- Model `class Practitioner(BaseModel)`: tag `"Practitioner"`, `name: List[HumanName]`. -/
structure Practitioner where
  name : List HumanName

/-- Model `class Condition(BaseModel)`: tag `"Condition"`, `subject: FhirReference`,
`code: CodeableConcept`, `asserter: FhirReference | None = None`. -/
structure Condition where
  subject : FhirReference
  code : CodeableConcept
  asserter : Option FhirReference

/-- The union `AnyResource = Union[Patient, Condition, Practitioner]`, discriminated
on `resourceType`. -/
inductive AnyResource where
  | patient (p : Patient)
  | condition (c : Condition)
  | practitioner (p : Practitioner)

/-- Model `class BundleEntry(BaseModel)`: `fullUrl: str`, `resource: AnyResource`
(discriminator `resourceType`), `request: dict` (kept open). -/
structure BundleEntry where
  fullUrl : String
  resource : AnyResource
  request : List (String × Json)

/-- Model `class FhirBundle(BaseModel)`: tag `"Bundle"`, `id: str`, `type: str`,
`entry: List[BundleEntry]`. -/
structure FhirBundle where
  id : String
  type : String
  entry : List BundleEntry

/-- Decoder for `HumanName`. -/
def validateHumanName (j : Json) : Except VError HumanName := do
  let _ ← validateObjKvs j
  let t ← fieldStr j "text"
  .ok ⟨t⟩

/-- Decoder for `FhirReference`. -/
def validateReference (j : Json) : Except VError FhirReference := do
  let _ ← validateObjKvs j
  let r ← fieldStr j "reference"
  .ok ⟨r⟩

/-- Required `List[HumanName]` field `name`. -/
def fieldNameList (j : Json) : Except VError (List HumanName) :=
  match j.getField "name" with
  | none => .error ⟨[.field "name"], .missing⟩
  | some (.arr xs) => within (.field "name") (validateListIdx validateHumanName 0 xs)
  | some _ => .error ⟨[.field "name"], .typeMismatch "list"⟩

/-- Decoder for `CodeableConcept`. -/
def validateCodeableConcept (j : Json) : Except VError CodeableConcept := do
  let _ ← validateObjKvs j
  let c ← match j.getField "coding" with
    | none => .error ⟨[PathSeg.field "coding"], ErrKind.missing⟩
    | some (.arr xs) => within (.field "coding") (validateListIdx validateObjKvs 0 xs)
    | some _ => .error ⟨[PathSeg.field "coding"], ErrKind.typeMismatch "list"⟩
  let t ← fieldStr j "text"
  .ok ⟨c, t⟩

/-- Optional `FhirReference | None = None` field (`asserter`). -/
def validateOptRef (j : Json) (k : String) : Except VError (Option FhirReference) :=
  match j.getField k with
  | none => .ok none
  | some .null => .ok none
  | some v => within (.field k) (Except.map some (validateReference v))

/-- Decoder for `Patient` (fields in declaration order:
`resourceType`, `name`, `birthDate`). -/
def validatePatient (j : Json) : Except VError Patient := do
  let _ ← validateObjKvs j
  let _ ← checkLit j "resourceType" "Patient"
  let nm ← fieldNameList j
  let bd ← validateOptStr j "birthDate"
  .ok ⟨nm, bd⟩

/-- Decoder for `Practitioner`. -/
def validatePractitioner (j : Json) : Except VError Practitioner := do
  let _ ← validateObjKvs j
  let _ ← checkLit j "resourceType" "Practitioner"
  let nm ← fieldNameList j
  .ok ⟨nm⟩

/-- Decoder for `Condition` (fields in declaration order:
`resourceType`, `subject`, `code`, `asserter`). -/
def validateCondition (j : Json) : Except VError Condition := do
  let _ ← validateObjKvs j
  let _ ← checkLit j "resourceType" "Condition"
  let sj ← reqField j "subject"
  let s ← within (.field "subject") (validateReference sj)
  let cj ← reqField j "code"
  let c ← within (.field "code") (validateCodeableConcept cj)
  let a ← validateOptRef j "asserter"
  .ok ⟨s, c, a⟩

/-- The discriminated-union resolver for
`AnyResource = Union[Patient, Condition, Practitioner]` with
`discriminator='resourceType'`: read the tag, dispatch to the matching
variant's decoder (pydantic inserts the chosen tag into the error
location), otherwise fail with `union_tag_invalid` — no best-effort
decode is attempted. -/
def validateAnyResource (j : Json) : Except VError AnyResource :=
  match j.getField "resourceType" with
  | some (.str t) =>
      if t = "Patient" then
        within (.field "Patient") (Except.map AnyResource.patient (validatePatient j))
      else if t = "Condition" then
        within (.field "Condition") (Except.map AnyResource.condition (validateCondition j))
      else if t = "Practitioner" then
        within (.field "Practitioner") (Except.map AnyResource.practitioner (validatePractitioner j))
      else .error ⟨[], .unionTagInvalid (some t)⟩
  | some _ => .error ⟨[], .unionTagInvalid none⟩
  | none => .error ⟨[], .unionTagInvalid none⟩

/-- Decoder for `BundleEntry` (fields in declaration order:
`fullUrl`, `resource`, `request`). -/
def validateBundleEntry (j : Json) : Except VError BundleEntry := do
  let _ ← validateObjKvs j
  let u ← fieldStr j "fullUrl"
  let rj ← reqField j "resource"
  let r ← within (.field "resource") (validateAnyResource rj)
  let qj ← reqField j "request"
  let q ← within (.field "request") (validateObjKvs qj)
  .ok ⟨u, r, q⟩

/-- The entries of a bundle, validated in order with their indices. -/
def validateEntries (i : Nat) (js : List Json) : Except VError (List BundleEntry) :=
  validateListIdx validateBundleEntry i js

/-- Decoder for `FhirBundle` (fields in declaration order:
`resourceType` = `Literal["Bundle"]`, `id`, `type`, `entry`). -/
def validateFhirBundle (j : Json) : Except VError FhirBundle := do
  let _ ← validateObjKvs j
  let _ ← checkLit j "resourceType" "Bundle"
  let bid ← fieldStr j "id"
  let bty ← fieldStr j "type"
  let es ← match j.getField "entry" with
    | none => .error ⟨[PathSeg.field "entry"], ErrKind.missing⟩
    | some (.arr xs) => within (.field "entry") (validateEntries 0 xs)
    | some _ => .error ⟨[PathSeg.field "entry"], ErrKind.typeMismatch "list"⟩
  .ok ⟨bid, bty, es⟩

/-- Does the second character list start with the first?
(Models Python `str.startswith` on the underlying characters.) -/
def matchAt : List Char → List Char → Bool
  | [], _ => true
  | _ :: _, [] => false
  | a :: as, b :: bs => a == b && matchAt as bs

/-- Does the second character list contain the first as a contiguous run?
(Models the Python `in` substring test; the empty needle always matches.) -/
def hasSub (needle : List Char) : List Char → Bool
  | [] => matchAt needle []
  | c :: cs => matchAt needle (c :: cs) || hasSub needle cs

/-- Python `needle in hay` on strings. -/
def strContains (hay needle : String) : Bool :=
  hasSub needle.data hay.data

/-- ASCII lowering of one character (the fragment of Python `str.lower`
exercised by the CSV data). -/
def charLower (c : Char) : Char :=
  if 65 ≤ c.toNat ∧ c.toNat ≤ 90 then Char.ofNat (c.toNat + 32) else c

/-- Models Python `str.lower`. -/
def strLower (s : String) : String :=
  ⟨s.data.map charLower⟩

/-- The mock bearer check `check_auth`: the `Authorization` header must be
present and start with `"Bearer "`; the token itself is never inspected. -/
def check_auth (h : Option String) : Bool :=
  match h with
  | none => false
  | some s => matchAt "Bearer ".data s.data

/-- An HTTP response: status code and JSON body. -/
structure HttpResponse where
  status : Nat
  body : Json

/-- Render one location segment into the JSON `loc` list of a FastAPI
validation error. -/
def segToJson : PathSeg → Json
  | .field s => .str s
  | .index i => .num (Int.ofNat i)

/-- The pydantic `type` string of an error kind. -/
def errTypeStr : ErrKind → String
  | .missing => "missing"
  | .literalMismatch _ => "literal_error"
  | .unionTagInvalid _ => "union_tag_invalid"
  | .typeMismatch t => t ++ "_type"

/-- The body FastAPI's default handler answers with on a validation
failure: HTTP 422 carrying `{"detail": [{"type": …, "loc": […]}]}` —
the framework's error-list payload, not an `OperationOutcome`. -/
def validationErrorBody (loc : List PathSeg) (kind : ErrKind) : Json :=
  .obj [("detail", .arr [.obj [("type", .str (errTypeStr kind)),
                               ("loc", .arr (loc.map segToJson))]])]

/-- The fixed success document built by `submit_fhir_bundle`. -/
def successOutcome : Json :=
  .obj [("resourceType", .str "OperationOutcome"),
        ("issue", .arr [.obj [
          ("severity", .str "information"),
          ("code", .str "informational"),
          ("details", .obj [("text",
            .str "FHIR Bundle received and validated successfully.")])]])]

/-- Endpoint `POST /fhir/Bundle`: the `check_auth` dependency answers 401 on a
missing or non-bearer header; then the body is validated as a
`FhirBundle` — failure yields FastAPI's 422 error payload (locations
rooted at `body`), success yields HTTP 200 with the fixed
`OperationOutcome`. -/
def submit_fhir_bundle (h : Option String) (body : Json) : HttpResponse :=
  if check_auth h = false then
    ⟨401, .obj [("detail", .str "Invalid authorization scheme")]⟩
  else
    match validateFhirBundle body with
    | .ok _ => ⟨200, successOutcome⟩
    | .error e => ⟨422, validationErrorBody (.field "body" :: e.loc) e.kind⟩

/-- A row of one of the two in-memory tables (a CSV record: column name to
cell text). -/
def Row : Type := List (String × String)

/-- Python `record.get(k, '')` followed by `str(...)`: the cell text, `""` when the
column is absent. -/
def rowGet (r : Row) (k : String) : String :=
  (List.lookup k r).getD ""

/-- The match predicate of `/api/lookup`: the lowered query occurs in the
lowered `namaste_display` or `icd11_display` cell. -/
def termRowMatches (ql : String) (r : Row) : Bool :=
  strContains (strLower (rowGet r "namaste_display")) ql ||
  strContains (strLower (rowGet r "icd11_display")) ql

/-- The match predicate of `/api/patients`: the lowered query occurs in the
lowered `patient_name` or `dob` cell. -/
def patientRowMatches (ql : String) (r : Row) : Bool :=
  strContains (strLower (rowGet r "patient_name")) ql ||
  strContains (strLower (rowGet r "dob")) ql

/-- Handler `lookup_namaste_code` over table `data`: empty query or empty table
gives `[]`; otherwise the matching rows in load order, truncated to 15. -/
def lookup_namaste_code (data : List Row) (q : String) : List Row :=
  if q = "" || data.isEmpty then []
  else (data.filter (termRowMatches (strLower q))).take 15

/-- Handler `search_patients` over table `data`: empty query or empty table gives
`[]`; otherwise the matching rows in load order, truncated to 10. -/
def search_patients (data : List Row) (q : String) : List Row :=
  if q = "" || data.isEmpty then []
  else (data.filter (patientRowMatches (strLower q))).take 10

/-- Render a result list as the JSON array body of a lookup response. -/
def rowsToJson (rows : List Row) : Json :=
  .arr (rows.map fun r => .obj (r.map fun kv => (kv.1, .str kv.2)))

/-- Endpoint `GET /api/lookup`: `q` is a required query parameter, so an absent `q`
is answered by FastAPI with a 422 validation error located at
`("query", "q")`; otherwise the handler body runs. -/
def lookup_namaste_endpoint (data : List Row) (q : Option String) : HttpResponse :=
  match q with
  | none => ⟨422, validationErrorBody [.field "query", .field "q"] .missing⟩
  | some s => ⟨200, rowsToJson (lookup_namaste_code data s)⟩

/-- Endpoint `GET /api/patients`: same required-parameter rule as `/api/lookup`. -/
def search_patients_endpoint (data : List Row) (q : Option String) : HttpResponse :=
  match q with
  | none => ⟨422, validationErrorBody [.field "query", .field "q"] .missing⟩
  | some s => ⟨200, rowsToJson (search_patients data s)⟩

/-- The well-formed example bundle: one Patient entry named "Jane Doe". -/
def janeBundle : Json :=
  .obj [("resourceType", .str "Bundle"), ("id", .str "b1"),
        ("type", .str "transaction"),
        ("entry", .arr [.obj [
          ("fullUrl", .str "urn:1"),
          ("resource", .obj [("resourceType", .str "Patient"),
                             ("name", .arr [.obj [("text", .str "Jane Doe")]])]),
          ("request", .obj [("method", .str "POST")])]])]

/-- The Jane Doe bundle with the envelope tag in the wrong case
(`"bundle"`), otherwise identical. -/
def lowerTagBundle : Json :=
  .obj [("resourceType", .str "bundle"), ("id", .str "b1"),
        ("type", .str "transaction"),
        ("entry", .arr [.obj [
          ("fullUrl", .str "urn:1"),
          ("resource", .obj [("resourceType", .str "Patient"),
                             ("name", .arr [.obj [("text", .str "Jane Doe")]])]),
          ("request", .obj [("method", .str "POST")])]])]

/-- A record with the unrecognized tag `"Observation"`. -/
def obsResource : Json :=
  .obj [("resourceType", .str "Observation"), ("status", .str "final")]

/-- A second valid bundle, with different id, type and (empty) entries. -/
def emptyBundle : Json :=
  .obj [("resourceType", .str "Bundle"), ("id", .str "b2"),
        ("type", .str "batch"), ("entry", .arr [])]

/-- An entry list whose entries 0 and 1 are valid and whose entry 2
carries the unknown tag `"Observation"`. -/
def obsEntries : List Json :=
  [.obj [("fullUrl", .str "urn:0"),
         ("resource", .obj [("resourceType", .str "Patient"),
                            ("name", .arr [.obj [("text", .str "A")]])]),
         ("request", .obj [("method", .str "POST")])],
   .obj [("fullUrl", .str "urn:1"),
         ("resource", .obj [("resourceType", .str "Practitioner"),
                            ("name", .arr [.obj [("text", .str "B")]])]),
         ("request", .obj [("method", .str "POST")])],
   .obj [("fullUrl", .str "urn:2"),
         ("resource", .obj [("resourceType", .str "Observation")]),
         ("request", .obj [("method", .str "POST")])]]

/-- The error produced on `obsEntries`: entry index 2, inner
unknown-resource-type at its `resource` field. -/
def obsErr : VError :=
  ⟨[PathSeg.index 2, PathSeg.field "resource"],
   ErrKind.unionTagInvalid (some "Observation")⟩

/-- Sample terminology rows. -/
def termRow0 : Row := [("namaste_display", "Jvara"), ("icd11_display", "Fever")]

/-- Second sample terminology row. -/
def termRow1 : Row := [("namaste_display", "Kasa"), ("icd11_display", "Cough")]

/-- The sample terminology table. -/
def termTable : List Row := [termRow0, termRow1]

/-- Sample roster row. -/
def patRow0 : Row := [("patient_name", "Asha Rao"), ("dob", "1990-05-01")]

/-- Second sample roster row. -/
def patRow1 : Row := [("patient_name", "Vikram Singh"), ("dob", "1985-11-23")]

/-- The sample roster table. -/
def patTable : List Row := [patRow0, patRow1]

theorem exc_bind_ok {α β : Type} {m : Except VError α} {f : α → Except VError β}
    {b : β} (h : (m >>= f) = Except.ok b) :
    ∃ a, m = Except.ok a ∧ f a = Except.ok b := by
  cases m with
  | ok a =>
    refine ⟨a, rfl, ?_⟩
    simpa [Bind.bind, Except.bind] using h
  | error e => simp [Bind.bind, Except.bind] at h

theorem exc_bind_err {α β : Type} {m : Except VError α} {f : α → Except VError β}
    {e : VError} (h : (m >>= f) = Except.error e) :
    m = Except.error e ∨ ∃ a, m = Except.ok a ∧ f a = Except.error e := by
  cases m with
  | ok a =>
    right
    refine ⟨a, rfl, ?_⟩
    simpa [Bind.bind, Except.bind] using h
  | error e0 =>
    left
    simpa [Bind.bind, Except.bind] using h

theorem exc_bind_ok_left {α β : Type} (a : α) (f : α → Except VError β) :
    ((Except.ok a : Except VError α) >>= f) = f a := rfl

theorem exc_bind_err_left {α β : Type} (e : VError) (f : α → Except VError β) :
    ((Except.error e : Except VError α) >>= f) = Except.error e := rfl

theorem within_ok {α : Type} {seg : PathSeg} {r : Except VError α} {a : α} :
    within seg r = Except.ok a ↔ r = Except.ok a := by
  cases r <;> simp [within]

theorem within_err {α : Type} {seg : PathSeg} {r : Except VError α} {e : VError} :
    within seg r = Except.error e ↔
      ∃ e0, r = Except.error e0 ∧ e = ⟨seg :: e0.loc, e0.kind⟩ := by
  cases r with
  | ok a => simp [within]
  | error e0 =>
    simp only [within, Except.error.injEq]
    constructor
    · intro h
      exact ⟨e0, rfl, h.symm⟩
    · rintro ⟨e1, h1, h2⟩
      cases h1
      exact h2.symm

theorem exc_map_ok {α β : Type} {g : α → β} {r : Except VError α} {b : β}
    (h : Except.map g r = Except.ok b) : ∃ a, r = Except.ok a ∧ b = g a := by
  cases r with
  | ok a =>
    refine ⟨a, rfl, ?_⟩
    simpa [Except.map] using h.symm
  | error e => simp [Except.map] at h

theorem checkLit_ok {j : Json} {k expected : String} {u : Unit}
    (h : checkLit j k expected = Except.ok u) :
    j.getField k = some (Json.str expected) := by
  unfold checkLit at h
  cases hg : j.getField k with
  | none => rw [hg] at h; simp at h
  | some v =>
    rw [hg] at h
    cases v with
    | str s =>
      by_cases hs : s = expected
      · subst hs; rfl
      · simp [hs] at h
    | null => simp at h
    | bool b => simp at h
    | num n => simp at h
    | arr xs => simp at h
    | obj kvs => simp at h

theorem checkLit_mismatch {j : Json} {k expected : String} {v : Json}
    (hg : j.getField k = some v) (hv : v ≠ Json.str expected) :
    checkLit j k expected =
      Except.error ⟨[PathSeg.field k], ErrKind.literalMismatch expected⟩ := by
  unfold checkLit
  rw [hg]
  cases v with
  | str s =>
    have hs : s ≠ expected := fun h => hv (by rw [h])
    simp [if_neg hs]
  | null => rfl
  | bool b => rfl
  | num n => rfl
  | arr xs => rfl
  | obj kvs => rfl

theorem validateListIdx_err_spec {α : Type} (f : Json → Except VError α) :
    ∀ (js : List Json) (i : Nat) (e : VError),
      validateListIdx f i js = Except.error e →
      ∃ k, ∃ hk : k < js.length, ∃ e0 : VError,
        f (js.get ⟨k, hk⟩) = Except.error e0 ∧
        e = ⟨PathSeg.index (i + k) :: e0.loc, e0.kind⟩ ∧
        ∀ m, ∀ hm : m < k, ∃ a, f (js.get ⟨m, hm.trans hk⟩) = Except.ok a := by
  intro js
  induction js with
  | nil => intro i e h; simp [validateListIdx] at h
  | cons j js ih =>
    intro i e h
    unfold validateListIdx at h
    rcases exc_bind_err h with h1 | ⟨a, ha, h2⟩
    · rcases within_err.mp h1 with ⟨e0, he0, he⟩
      refine ⟨0, Nat.succ_pos _, e0, he0, ?_, ?_⟩
      · simpa using he
      · intro m hm; omega
    · rcases exc_bind_err h2 with h3 | ⟨rest, hrest, h4⟩
      · rcases ih (i + 1) e h3 with ⟨k, hk, e0, hf, he, hpre⟩
        refine ⟨k + 1, Nat.succ_lt_succ hk, e0, hf, ?_, ?_⟩
        · have harith : i + 1 + k = i + (k + 1) := by omega
          rw [harith] at he
          exact he
        · intro m hm
          cases m with
          | zero => exact ⟨a, within_ok.mp ha⟩
          | succ m' => exact hpre m' (Nat.lt_of_succ_lt_succ hm)
      · simp at h4

theorem validateListIdx_err_exists {α : Type} (f : Json → Except VError α) :
    ∀ (js : List Json) (i : Nat),
      (∃ k, ∃ hk : k < js.length, ∃ e0, f (js.get ⟨k, hk⟩) = Except.error e0) →
      ∃ e, validateListIdx f i js = Except.error e := by
  intro js
  induction js with
  | nil => rintro i ⟨k, hk, -⟩; simp at hk
  | cons j js ih =>
    rintro i ⟨k, hk, e0, hf⟩
    cases hfj : f j with
    | error e1 =>
      refine ⟨⟨PathSeg.index i :: e1.loc, e1.kind⟩, ?_⟩
      unfold validateListIdx
      simp [within, hfj, Bind.bind, Except.bind]
    | ok a =>
      cases k with
      | zero =>
        simp only [List.get] at hf
        rw [hfj] at hf
        exact absurd hf (by simp)
      | succ k' =>
        rcases ih (i + 1) ⟨k', Nat.lt_of_succ_lt_succ hk, e0, hf⟩ with ⟨e, he⟩
        refine ⟨e, ?_⟩
        unfold validateListIdx
        simp [within, hfj, he, Bind.bind, Except.bind]

/-- C3: bundle envelope validation accepts a record only when its
`resourceType` tag is exactly the string `"Bundle"`; any other tag value
(case variants included) is rejected with the envelope-tag literal
mismatch error — the comparison is exact and case-sensitive. -/
theorem bundle_envelope_tag_exact (j : Json) :
    (∀ b, validateFhirBundle j = Except.ok b →
        j.getField "resourceType" = some (Json.str "Bundle")) ∧
    (∀ v, j.getField "resourceType" = some v → v ≠ Json.str "Bundle" →
        validateFhirBundle j =
          Except.error ⟨[PathSeg.field "resourceType"],
                        ErrKind.literalMismatch "Bundle"⟩) := by
  constructor
  · intro b h
    unfold validateFhirBundle at h
    obtain ⟨kvs, hkvs, h1⟩ := exc_bind_ok h
    obtain ⟨u, hu, h2⟩ := exc_bind_ok h1
    exact checkLit_ok hu
  · intro v hg hv
    have hcl := checkLit_mismatch hg hv
    cases j with
    | obj kvs =>
      unfold validateFhirBundle
      have hobj : validateObjKvs (Json.obj kvs) = Except.ok kvs := rfl
      rw [hobj, exc_bind_ok_left, hcl, exc_bind_err_left]
    | null => simp [Json.getField] at hg
    | bool b => simp [Json.getField] at hg
    | num n => simp [Json.getField] at hg
    | str s => simp [Json.getField] at hg
    | arr xs => simp [Json.getField] at hg

/-- Witness for C3: the wrong-case tag `"bundle"` is present and the
bundle is rejected with the envelope-tag mismatch at `resourceType`. -/
theorem bundle_envelope_tag_exact_witness :
    lowerTagBundle.getField "resourceType" = some (Json.str "bundle") ∧
    validateFhirBundle lowerTagBundle =
      Except.error ⟨[PathSeg.field "resourceType"],
                    ErrKind.literalMismatch "Bundle"⟩ :=
  ⟨rfl, (bundle_envelope_tag_exact lowerTagBundle).2 (Json.str "bundle") rfl
    (by simp only [ne_eq, Json.str.injEq]; decide)⟩

/-- C4: the discriminated resolver decodes a record only when its
`resourceType` tag is exactly `"Patient"`, `"Condition"` or
`"Practitioner"`, yielding the matching variant; any other tag fails
immediately with the unknown-tag error, never a partial decode. -/
theorem resolver_tag_dispatch (j : Json) :
    (∀ r, validateAnyResource j = Except.ok r →
      (j.getField "resourceType" = some (Json.str "Patient") ∧
        ∃ p, r = AnyResource.patient p) ∨
      (j.getField "resourceType" = some (Json.str "Condition") ∧
        ∃ c, r = AnyResource.condition c) ∨
      (j.getField "resourceType" = some (Json.str "Practitioner") ∧
        ∃ p, r = AnyResource.practitioner p)) ∧
    (∀ t, j.getField "resourceType" = some (Json.str t) →
      t ≠ "Patient" → t ≠ "Condition" → t ≠ "Practitioner" →
      validateAnyResource j =
        Except.error ⟨[], ErrKind.unionTagInvalid (some t)⟩) := by
  constructor
  · intro r h
    unfold validateAnyResource at h
    split at h
    · rename_i t heq
      by_cases h1 : t = "Patient"
      · subst h1
        rw [if_pos rfl] at h
        obtain ⟨p, -, hp⟩ := exc_map_ok (within_ok.mp h)
        exact Or.inl ⟨heq, p, hp⟩
      · rw [if_neg h1] at h
        by_cases h2 : t = "Condition"
        · subst h2
          rw [if_pos rfl] at h
          obtain ⟨c, -, hc⟩ := exc_map_ok (within_ok.mp h)
          exact Or.inr (Or.inl ⟨heq, c, hc⟩)
        · rw [if_neg h2] at h
          by_cases h3 : t = "Practitioner"
          · subst h3
            rw [if_pos rfl] at h
            obtain ⟨p, -, hp⟩ := exc_map_ok (within_ok.mp h)
            exact Or.inr (Or.inr ⟨heq, p, hp⟩)
          · rw [if_neg h3] at h; simp at h
    · simp at h
    · simp at h
  · intro t hg h1 h2 h3
    unfold validateAnyResource
    rw [hg]
    simp [h1, h2, h3]

/-- Witness for C4: the tag `"Observation"` is present and the resolver
fails with the unknown-resource-type error, attempting no decode. -/
theorem resolver_tag_dispatch_witness :
    obsResource.getField "resourceType" = some (Json.str "Observation") ∧
    validateAnyResource obsResource =
      Except.error ⟨[], ErrKind.unionTagInvalid (some "Observation")⟩ :=
  ⟨rfl, (resolver_tag_dispatch obsResource).2 "Observation" rfl
    (by decide) (by decide) (by decide)⟩

/-- C1: every submission whose bearer check passes and whose body
validates as a `FhirBundle` is answered with HTTP 200 and the
fixed-shape `OperationOutcome`: exactly one issue, severity
`"information"`, code `"informational"`, human-readable confirmation. -/
theorem submit_valid_bundle_success (h : Option String) (body : Json)
    (b : FhirBundle) (hauth : check_auth h = true)
    (hval : validateFhirBundle body = Except.ok b) :
    submit_fhir_bundle h body =
      ⟨200, Json.obj [("resourceType", Json.str "OperationOutcome"),
        ("issue", Json.arr [Json.obj [
          ("severity", Json.str "information"),
          ("code", Json.str "informational"),
          ("details", Json.obj [("text",
            Json.str "FHIR Bundle received and validated successfully.")])]])]⟩ := by
  simp [submit_fhir_bundle, hauth, hval, successOutcome]

/-- Witness for C1: the Jane Doe transaction bundle with header
`Authorization: Bearer x` gets HTTP 200 and the informational outcome. -/
theorem submit_valid_bundle_success_witness :
    check_auth (some "Bearer x") = true ∧
    submit_fhir_bundle (some "Bearer x") janeBundle =
      ⟨200, Json.obj [("resourceType", Json.str "OperationOutcome"),
        ("issue", Json.arr [Json.obj [
          ("severity", Json.str "information"),
          ("code", Json.str "informational"),
          ("details", Json.obj [("text",
            Json.str "FHIR Bundle received and validated successfully.")])]])]⟩ :=
  ⟨rfl, submit_valid_bundle_success (some "Bearer x") janeBundle
    ⟨"b1", "transaction",
      [⟨"urn:1", .patient ⟨[⟨"Jane Doe"⟩], none⟩, [("method", Json.str "POST")]⟩]⟩
    rfl rfl⟩

/-- C10: the success response is one constant document — any two
submissions that pass the bearer check and validate get the identical
response, whatever their ids, types or entries. -/
theorem submit_success_outcome_constant (h1 h2 : Option String)
    (j1 j2 : Json) (b1 b2 : FhirBundle)
    (ha1 : check_auth h1 = true) (ha2 : check_auth h2 = true)
    (hv1 : validateFhirBundle j1 = Except.ok b1)
    (hv2 : validateFhirBundle j2 = Except.ok b2) :
    submit_fhir_bundle h1 j1 = submit_fhir_bundle h2 j2 := by
  simp [submit_fhir_bundle, ha1, ha2, hv1, hv2]

/-- Witness for C10: the Jane Doe bundle and an unrelated empty bundle
(different id, type, entries, token) receive the identical response. -/
theorem submit_success_outcome_constant_witness :
    submit_fhir_bundle (some "Bearer x") janeBundle =
      submit_fhir_bundle (some "Bearer other-token") emptyBundle :=
  submit_success_outcome_constant (some "Bearer x") (some "Bearer other-token")
    janeBundle emptyBundle
    ⟨"b1", "transaction",
      [⟨"urn:1", .patient ⟨[⟨"Jane Doe"⟩], none⟩, [("method", Json.str "POST")]⟩]⟩
    ⟨"b2", "batch", []⟩ rfl rfl rfl rfl

/-- Counterexample for C2: submitting the wrong-case-tag bundle with a
valid bearer header is answered with HTTP 422 whose body is the
framework's `detail` payload — it has no `resourceType` field at all, so
it is not an `OperationOutcome` document with severity `"error"`. -/
theorem submit_error_not_outcome_counterexample :
    (submit_fhir_bundle (some "Bearer x") lowerTagBundle).status = 422 ∧
    (submit_fhir_bundle (some "Bearer x") lowerTagBundle).body.getField
      "resourceType" = none ∧
    (submit_fhir_bundle (some "Bearer x") lowerTagBundle).body.getField
      "resourceType" ≠ some (Json.str "OperationOutcome") := by
  refine ⟨rfl, rfl, ?_⟩
  intro hc
  have h0 : (submit_fhir_bundle (some "Bearer x") lowerTagBundle).body.getField
      "resourceType" = none := rfl
  rw [h0] at hc
  exact Option.noConfusion hc

/-- C2 as amended: on a validation failure the caller gets HTTP 422 with
FastAPI's uniform validation-error payload — a `detail` list embedding
the error class and the field path / entry index, rooted at `body` —
never a bare exception payload, but also not an `OperationOutcome`
(the body carries no `resourceType`). -/
theorem submit_invalid_bundle_detail_payload (h : Option String)
    (body : Json) (e : VError) (hauth : check_auth h = true)
    (hval : validateFhirBundle body = Except.error e) :
    submit_fhir_bundle h body =
      ⟨422, validationErrorBody (PathSeg.field "body" :: e.loc) e.kind⟩ ∧
    (validationErrorBody (PathSeg.field "body" :: e.loc) e.kind).getField
      "resourceType" = none := by
  constructor
  · simp [submit_fhir_bundle, hauth, hval]
  · rfl

/-- Witness for C2 (amended): the wrong-case-tag bundle fails validation
with the envelope literal mismatch, and the response is the 422 detail
payload locating `body.resourceType`. -/
theorem submit_invalid_bundle_detail_payload_witness :
    check_auth (some "Bearer x") = true ∧
    validateFhirBundle lowerTagBundle =
      Except.error ⟨[PathSeg.field "resourceType"],
                    ErrKind.literalMismatch "Bundle"⟩ ∧
    (submit_fhir_bundle (some "Bearer x") lowerTagBundle =
      ⟨422, validationErrorBody
        [PathSeg.field "body", PathSeg.field "resourceType"]
        (ErrKind.literalMismatch "Bundle")⟩ ∧
    (validationErrorBody
        [PathSeg.field "body", PathSeg.field "resourceType"]
        (ErrKind.literalMismatch "Bundle")).getField "resourceType" = none) :=
  ⟨rfl, rfl,
    submit_invalid_bundle_detail_payload (some "Bearer x") lowerTagBundle
      ⟨[PathSeg.field "resourceType"], ErrKind.literalMismatch "Bundle"⟩ rfl rfl⟩

/-- C5: entry validation is all-or-nothing and fail-fast.  If the entry
sequence is rejected, the error is exactly the first failing entry's
inner error prefixed with that entry's index, and every earlier entry
validated successfully; conversely one invalid entry suffices to reject
the whole sequence, so no partial acceptance is possible. -/
theorem bundle_entries_fail_fast (js : List Json) (i : Nat) :
    (∀ e, validateEntries i js = Except.error e →
      ∃ k, ∃ hk : k < js.length, ∃ e0 : VError,
        validateBundleEntry (js.get ⟨k, hk⟩) = Except.error e0 ∧
        e = ⟨PathSeg.index (i + k) :: e0.loc, e0.kind⟩ ∧
        ∀ m, ∀ hm : m < k,
          ∃ b, validateBundleEntry (js.get ⟨m, hm.trans hk⟩) = Except.ok b) ∧
    ((∃ k, ∃ hk : k < js.length, ∃ e0,
        validateBundleEntry (js.get ⟨k, hk⟩) = Except.error e0) →
      ∃ e, validateEntries i js = Except.error e) :=
  ⟨fun e h => validateListIdx_err_spec validateBundleEntry js i e h,
   fun hex => validateListIdx_err_exists validateBundleEntry js i hex⟩

/-- Witness for C5: on `obsEntries` validation fails with an error naming
entry index 2 wrapping the unknown-tag reason, entries 0 and 1 having
validated. -/
theorem bundle_entries_fail_fast_witness :
    validateEntries 0 obsEntries = Except.error obsErr ∧
    ∃ k, ∃ hk : k < obsEntries.length, ∃ e0 : VError,
      validateBundleEntry (obsEntries.get ⟨k, hk⟩) = Except.error e0 ∧
      obsErr = ⟨PathSeg.index (0 + k) :: e0.loc, e0.kind⟩ ∧
      ∀ m, ∀ hm : m < k,
        ∃ b, validateBundleEntry (obsEntries.get ⟨m, hm.trans hk⟩) = Except.ok b :=
  ⟨rfl, (bundle_entries_fail_fast obsEntries 0).1 obsErr rfl⟩

theorem mem_take_filter {p : Row → Bool} {data : List Row} {n : Nat} {r : Row}
    (h : r ∈ (data.filter p).take n) : p r = true :=
  (List.mem_filter.mp (List.mem_of_mem_take h)).2

/-- C6: a terminology lookup returns at most 15 rows, and every returned
row contains the query case-insensitively in its `namaste_display` or
`icd11_display` cell; an oversized match set is truncated, never an
error. -/
theorem lookup_terms_cap_and_substring (data : List Row) (q : String) :
    (lookup_namaste_code data q).length ≤ 15 ∧
    ∀ r ∈ lookup_namaste_code data q,
      strContains (strLower (rowGet r "namaste_display")) (strLower q) = true ∨
      strContains (strLower (rowGet r "icd11_display")) (strLower q) = true := by
  unfold lookup_namaste_code
  by_cases hq : (decide (q = "") || data.isEmpty) = true
  · simp [hq]
  · rw [if_neg (by simpa using hq)]
    refine ⟨List.length_take_le 15 _, ?_⟩
    intro r hr
    have hp : termRowMatches (strLower q) r = true := mem_take_filter hr
    exact Bool.or_eq_true_iff.mp hp

/-- Witness for C6: querying `"Fev"` over the sample table stays within
the cap and the returned row matches case-insensitively. -/
theorem lookup_terms_cap_and_substring_witness :
    (lookup_namaste_code termTable "Fev").length ≤ 15 ∧
    (strContains (strLower (rowGet termRow0 "namaste_display"))
       (strLower "Fev") = true ∨
     strContains (strLower (rowGet termRow0 "icd11_display"))
       (strLower "Fev") = true) :=
  ⟨(lookup_terms_cap_and_substring termTable "Fev").1,
   (lookup_terms_cap_and_substring termTable "Fev").2 termRow0 (List.Mem.head _)⟩

/-- C7: a patient lookup returns at most 10 rows, and every returned row
contains the query case-insensitively in its `patient_name` or `dob`
cell; an oversized match set is truncated, never an error. -/
theorem lookup_patients_cap_and_substring (data : List Row) (q : String) :
    (search_patients data q).length ≤ 10 ∧
    ∀ r ∈ search_patients data q,
      strContains (strLower (rowGet r "patient_name")) (strLower q) = true ∨
      strContains (strLower (rowGet r "dob")) (strLower q) = true := by
  unfold search_patients
  by_cases hq : (decide (q = "") || data.isEmpty) = true
  · simp [hq]
  · rw [if_neg (by simpa using hq)]
    refine ⟨List.length_take_le 10 _, ?_⟩
    intro r hr
    have hp : patientRowMatches (strLower q) r = true := mem_take_filter hr
    exact Bool.or_eq_true_iff.mp hp

/-- Witness for C7: querying `"asha"` over the sample roster stays within
the cap and the returned row matches case-insensitively. -/
theorem lookup_patients_cap_and_substring_witness :
    (search_patients patTable "asha").length ≤ 10 ∧
    (strContains (strLower (rowGet patRow0 "patient_name"))
       (strLower "asha") = true ∨
     strContains (strLower (rowGet patRow0 "dob"))
       (strLower "asha") = true) :=
  ⟨(lookup_patients_cap_and_substring patTable "asha").1,
   (lookup_patients_cap_and_substring patTable "asha").2 patRow0 (List.Mem.head _)⟩

/-- Counterexample for C8: `q` is a required query parameter, so a request
to `/api/lookup` with the parameter absent is answered with a 422
validation error, not the empty array the claim promises. -/
theorem lookup_absent_query_param_counterexample :
    lookup_namaste_endpoint [] none =
      ⟨422, validationErrorBody [PathSeg.field "query", PathSeg.field "q"]
              ErrKind.missing⟩ ∧
    lookup_namaste_endpoint [] none ≠ ⟨200, rowsToJson []⟩ := by
  refine ⟨rfl, ?_⟩
  intro hc
  have h0 : (lookup_namaste_endpoint [] none).status = 422 := rfl
  rw [hc] at h0
  exact absurd h0 (by decide)

/-- C8 as amended: an empty query string or an empty backing table makes
both lookups return the empty sequence (and the endpoints a 200 with an
empty array) rather than an error; an absent `q` parameter, however, is
a 422 parameter-validation error, since `q` is required. -/
theorem lookup_empty_degradation (data : List Row) (q : String) :
    lookup_namaste_code data "" = [] ∧
    search_patients data "" = [] ∧
    lookup_namaste_code [] q = [] ∧
    search_patients [] q = [] ∧
    lookup_namaste_endpoint data (some "") = ⟨200, rowsToJson []⟩ ∧
    search_patients_endpoint data (some "") = ⟨200, rowsToJson []⟩ ∧
    (lookup_namaste_endpoint data none).status = 422 ∧
    (search_patients_endpoint data none).status = 422 := by
  refine ⟨?_, ?_, ?_, ?_, ?_, ?_, rfl, rfl⟩ <;>
    simp [lookup_namaste_code, search_patients,
          lookup_namaste_endpoint, search_patients_endpoint]

/-- Witness for C8 (amended), at a concrete table and query. -/
theorem lookup_empty_degradation_witness :
    lookup_namaste_code termTable "" = [] ∧
    search_patients patTable "" = [] ∧
    lookup_namaste_code [] "fever" = [] ∧
    search_patients [] "fever" = [] ∧
    lookup_namaste_endpoint termTable (some "") = ⟨200, rowsToJson []⟩ ∧
    search_patients_endpoint patTable (some "") = ⟨200, rowsToJson []⟩ ∧
    (lookup_namaste_endpoint termTable none).status = 422 ∧
    (search_patients_endpoint patTable none).status = 422 := by
  have h1 := lookup_empty_degradation termTable "fever"
  have h2 := lookup_empty_degradation patTable "fever"
  exact ⟨h1.1, h2.2.1, h1.2.2.1, h2.2.2.2.1, h1.2.2.2.2.1,
         h2.2.2.2.2.2.1, h1.2.2.2.2.2.2.1, h2.2.2.2.2.2.2.2⟩

/-- C9: lookup results keep the backing table's load order among matches
(each result list is an order-preserving sublist of the table), and the
cap keeps the earliest matches: the result is an initial segment of the
full match list. -/
theorem lookup_results_stable_order (data : List Row) (q : String) :
    List.Sublist (lookup_namaste_code data q) data ∧
    (∃ t, lookup_namaste_code data q ++ t =
      data.filter (termRowMatches (strLower q))) ∧
    List.Sublist (search_patients data q) data ∧
    (∃ t, search_patients data q ++ t =
      data.filter (patientRowMatches (strLower q))) := by
  unfold lookup_namaste_code search_patients
  by_cases hq : (decide (q = "") || data.isEmpty) = true
  · simp [hq]
  · rw [if_neg (by simpa using hq), if_neg (by simpa using hq)]
    refine ⟨(List.take_sublist _ _).trans (List.filter_sublist _),
            ⟨_, List.take_append_drop _ _⟩,
            (List.take_sublist _ _).trans (List.filter_sublist _),
            ⟨_, List.take_append_drop _ _⟩⟩
